import Mathlib

/-!
Shallow embedding of the CHIP-8 processor core from `src/processor.rs`
(petergeorgas/chip-eight).

Machine bytes are modelled as `Nat` with explicit `% 256` where the Rust
`u8` arithmetic wraps.  Rust panics (array index out of bounds, `usize`
underflow, `Option::unwrap` on `None`) are modelled by returning `none`.
Functions (`Nat → Nat`) stand for the fixed-size arrays `ram` (valid
addresses `< 4096`), `stack` (valid slots `< 16`) and `var_registers`
(valid indices `< 16`); `Nat → Nat → Nat` stands for the `[[u8; 64]; 32]`
display, indexed row-then-column.
-/

/-- `CHIP8_MEMORY` from `main.rs`. -/
def CHIP8_MEMORY : Nat := 4096

/-- `CHIP8_PROGRAM_MEMORY_START` from `processor.rs`. -/
def CHIP8_PROGRAM_MEMORY_START : Nat := 0x200

/-- `CHIP8_VF_INDEX` from `processor.rs`. -/
def CHIP8_VF_INDEX : Nat := 0x0F

/-- Pointwise update of a function modelling a mutable array slot write. -/
def upd (f : Nat → Nat) (i v : Nat) : Nat → Nat :=
  fun j => if j = i then v else f j

/-- The mutable CPU state of `struct Processor` (the two driver fields,
which are pure I/O collaborators, are omitted). -/
structure Processor where
  ram : Nat → Nat
  display : Nat → Nat → Nat
  stack : Nat → Nat
  var_registers : Nat → Nat
  pc : Nat
  index_register : Nat
  sp : Nat
  sound_timer : Nat
  delay_timer : Nat

/-- `push_addr`: `stack[sp] = address; sp += 1`.  Writing at `sp ≥ 16` is a
Rust index-out-of-bounds panic, modelled as `none`. -/
def push_addr (s : Processor) (address : Nat) : Option Processor :=
  if s.sp < 16 then
    some { s with stack := upd s.stack s.sp address, sp := s.sp + 1 }
  else none

/-- `pop_addr`: `sp -= 1; stack[sp]`.  With `sp = 0` the `usize`
subtraction underflows (panic in debug; in release it wraps and the
subsequent index is out of bounds, also a panic), modelled as `none`.
Returns the popped address together with the new state. -/
def pop_addr (s : Processor) : Option (Nat × Processor) :=
  if s.sp = 0 then none
  else some (s.stack (s.sp - 1), { s with sp := s.sp - 1 })

/-- `get_instruction`: reads big-endian 2 bytes at `pc`, advances `pc` by 2.
Reading at an address `≥ 4096` is an index panic, modelled as `none`. -/
def get_instruction (s : Processor) : Option (Nat × Processor) :=
  if s.pc + 1 < CHIP8_MEMORY then
    some ((s.ram s.pc <<< 8) ||| s.ram (s.pc + 1), { s with pc := s.pc + 2 })
  else none

/-- `load_program`'s loop, generalized over the write cursor: for each byte,
panic (`none`) if the target address is `≥ CHIP8_MEMORY`, else write it. -/
def load_from (ram : Nat → Nat) (address : Nat) : List Nat → Option (Nat → Nat)
  | [] => some ram
  | b :: rest =>
      if CHIP8_MEMORY ≤ address then none
      else load_from (upd ram address b) (address + 1) rest

/-- `load_program`: copies the program bytes into `ram` starting at
`0x200`, panicking when a write would land at or past address 4096. -/
def load_program (ram : Nat → Nat) (prog_data : List Nat) : Option (Nat → Nat) :=
  load_from ram CHIP8_PROGRAM_MEMORY_START prog_data

/-- `instruction_jmp`. -/
def instruction_jmp (s : Processor) (address : Nat) : Processor :=
  { s with pc := address }

/-- `instruction_jump_with_offset`. -/
def instruction_jump_with_offset (s : Processor) (address : Nat) : Processor :=
  instruction_jmp s (address + s.var_registers 0x00)

/-- `instruction_clear_screen`. -/
def instruction_clear_screen (s : Processor) : Processor :=
  { s with display := fun _ _ => 0 }

/-- `instruction_call_subroutine`: push current pc, jump to `address`. -/
def instruction_call_subroutine (s : Processor) (address : Nat) : Option Processor :=
  (push_addr s s.pc).map fun s1 => { s1 with pc := address }

/-- `instruction_return`: pop an address into pc. -/
def instruction_return (s : Processor) : Option Processor :=
  (pop_addr s).map fun p => { p.2 with pc := p.1 }

/-- `instruction_set`. -/
def instruction_set (s : Processor) (register : Nat) (value : Nat) : Processor :=
  { s with var_registers := upd s.var_registers register value }

/-- `instruction_add`: wrapping add of immediate, no flag. -/
def instruction_add (s : Processor) (register : Nat) (value : Nat) : Processor :=
  let value2 := (s.var_registers register + value) % 256
  { s with var_registers := upd s.var_registers register value2 }

/-- `instruction_set_index`. -/
def instruction_set_index (s : Processor) (value : Nat) : Processor :=
  { s with index_register := value }

/-- `instruction_skip_equal`. -/
def instruction_skip_equal (s : Processor) (register : Nat) (value : Nat) : Processor :=
  if s.var_registers register = value then { s with pc := s.pc + 2 } else s

/-- `instruction_skip_not_equal`. -/
def instruction_skip_not_equal (s : Processor) (register : Nat) (value : Nat) : Processor :=
  if s.var_registers register ≠ value then { s with pc := s.pc + 2 } else s

/-- `instruction_skip_key`. -/
def instruction_skip_key (s : Processor) (register : Nat) (keycode : Nat) : Processor :=
  if s.var_registers register = keycode then { s with pc := s.pc + 2 } else s

/-- `instruction_skip_not_key`. -/
def instruction_skip_not_key (s : Processor) (register : Nat) (keycode : Nat) : Processor :=
  if s.var_registers register ≠ keycode then { s with pc := s.pc + 2 } else s

/-- `instruction_skip_register_equal`. -/
def instruction_skip_register_equal (s : Processor) (vx vy : Nat) : Processor :=
  if s.var_registers vx = s.var_registers vy then { s with pc := s.pc + 2 } else s

/-- `instruction_skip_register_not_equal`. -/
def instruction_skip_register_not_equal (s : Processor) (vx vy : Nat) : Processor :=
  if s.var_registers vx ≠ s.var_registers vy then { s with pc := s.pc + 2 } else s

/-- `instruction_random`: `rand::random::<u8>()` is modelled by the oracle
byte `random_value` passed in from the cycle. -/
def instruction_random (s : Processor) (vx : Nat) (value : Nat) (random_value : Nat) :
    Processor :=
  { s with var_registers := upd s.var_registers vx (random_value &&& value) }

/-- `instruction_alu_set`. -/
def instruction_alu_set (s : Processor) (vx vy : Nat) : Processor :=
  { s with var_registers := upd s.var_registers vx (s.var_registers vy) }

/-- `instruction_alu_or`. -/
def instruction_alu_or (s : Processor) (vx vy : Nat) : Processor :=
  let v := s.var_registers vx ||| s.var_registers vy
  { s with var_registers := upd s.var_registers vx v }

/-- `instruction_alu_and`. -/
def instruction_alu_and (s : Processor) (vx vy : Nat) : Processor :=
  let v := s.var_registers vx &&& s.var_registers vy
  { s with var_registers := upd s.var_registers vx v }

/-- `instruction_alu_xor`. -/
def instruction_alu_xor (s : Processor) (vx vy : Nat) : Processor :=
  let v := s.var_registers vx ^^^ s.var_registers vy
  { s with var_registers := upd s.var_registers vx v }

/-- `instruction_alu_add`: `overflowing_add` on `u8` gives the wrapped sum
and the carry; the handler writes Vx first, then VF. -/
def instruction_alu_add (s : Processor) (vx vy : Nat) : Processor :=
  let value := (s.var_registers vx + s.var_registers vy) % 256
  let overflow := 256 ≤ s.var_registers vx + s.var_registers vy
  let s1 := { s with var_registers := upd s.var_registers vx value }
  if overflow then
    { s1 with var_registers := upd s1.var_registers CHIP8_VF_INDEX 1 }
  else
    { s1 with var_registers := upd s1.var_registers CHIP8_VF_INDEX 0 }

/-- `instruction_alu_subtract`: reads both operands first; sets VF to 1
when `vx_value > vy_value` *before* the wrapping subtraction, writes the
wrapped difference into Vx, and sets VF to 0 only when the subtraction
underflowed.  `overflowing_sub` on `u8` gives `(a + 256 - b) % 256` and
underflow exactly when `a < b`. -/
def instruction_alu_subtract (s : Processor) (vx vy : Nat) : Processor :=
  let vx_value := s.var_registers vx
  let vy_value := s.var_registers vy
  let s1 :=
    if vy_value < vx_value then
      { s with var_registers := upd s.var_registers CHIP8_VF_INDEX 1 }
    else s
  let value := (vx_value + 256 - vy_value) % 256
  let s2 := { s1 with var_registers := upd s1.var_registers vx value }
  if vx_value < vy_value then
    { s2 with var_registers := upd s2.var_registers CHIP8_VF_INDEX 0 }
  else s2

/-- `instruction_alu_shift`: Vx is first overwritten with Vy's value, the
flag byte is `vx & 0x80` (left) or `vx & 0x01` (right) of the copied
value, the copy is shifted (u8 `<<` truncates to 8 bits), then VF is
written followed by Vx. -/
def instruction_alu_shift (s : Processor) (vx vy : Nat) (left_shift : Bool) : Processor :=
  let s1 := { s with var_registers := upd s.var_registers vx (s.var_registers vy) }
  let vx_value := s1.var_registers vx
  let vf_value :=
    if left_shift then s1.var_registers vx &&& 0x80
    else s1.var_registers vx &&& 0x01
  let vx_value2 :=
    if left_shift then (vx_value <<< 1) % 256
    else vx_value >>> 1
  let s2 := { s1 with var_registers := upd s1.var_registers CHIP8_VF_INDEX vf_value }
  { s2 with var_registers := upd s2.var_registers vx vx_value2 }

/-- The sequence of loop indices `(i, j)` visited by `instruction_draw_display`:
`i` over the sprite rows (outer loop), `j` over the 8 bits (inner loop). -/
def drawPairs (height : Nat) : List (Nat × Nat) :=
  (List.range height).product (List.range 8)

/-- The sprite bit used at loop indices `p = (i, j)`:
`(ram[index_register + i] >> j) & 1`. -/
def spriteBit (ram : Nat → Nat) (index_register : Nat) (p : Nat × Nat) : Nat :=
  (ram (index_register + p.1) >>> p.2) &&& 1

/-- The screen cell written at loop indices `p = (i, j)`:
`((row + i) % 32, (col + 7 - j) % 64)`. -/
def drawLoc (row col : Nat) (p : Nat × Nat) : Nat × Nat :=
  ((row + p.1) % 32, (col + 7 - p.2) % 64)

/-- One inner-loop iteration of the draw loop, acting on the pair
(display, VF-accumulator): reads the sprite bit, tests collision against
the current pixel, XORs the bit into the pixel. -/
def drawStep (ram : Nat → Nat) (index_register row col : Nat)
    (dv : (Nat → Nat → Nat) × Nat) (p : Nat × Nat) : (Nat → Nat → Nat) × Nat :=
  let bit := spriteBit ram index_register p
  let r := (drawLoc row col p).1
  let c := (drawLoc row col p).2
  let pixel_screen := dv.1 r c
  let vf := if bit = 1 ∧ pixel_screen = 1 then 1 else dv.2
  (fun r' c' => if r' = r ∧ c' = c then pixel_screen ^^^ bit else dv.1 r' c', vf)

/-- `instruction_draw_display`: row := Vy, col := Vx, VF := 0, then the
nested loop over sprite rows and bits (flattened to `drawPairs`,
preserving the iteration order of the Rust nested `for` loops).  Reading
`ram[index_register + i]` at an address `≥ 4096` is an index panic,
modelled as `none`. -/
def instruction_draw_display (s : Processor) (vx vy height : Nat) : Option Processor :=
  let row := s.var_registers vy
  let col := s.var_registers vx
  if ∀ i < height, s.index_register + i < CHIP8_MEMORY then
    let res := (drawPairs height).foldl (drawStep s.ram s.index_register row col)
      (s.display, 0)
    some { s with display := res.1,
                  var_registers := upd s.var_registers CHIP8_VF_INDEX res.2 }
  else none

/-- First nibble of an instruction word: `(instruction & 0xF000) >> 12`. -/
def nib1 (instruction : Nat) : Nat := (instruction &&& 0xF000) >>> 12

/-- Second nibble: `(instruction & 0x0F00) >> 8`. -/
def nib2 (instruction : Nat) : Nat := (instruction &&& 0x0F00) >>> 8

/-- Third nibble: `(instruction & 0x00F0) >> 4`. -/
def nib3 (instruction : Nat) : Nat := (instruction &&& 0x00F0) >>> 4

/-- Fourth nibble: `instruction & 0x000F`. -/
def nib4 (instruction : Nat) : Nat := instruction &&& 0x000F

/-- `decode_and_execute_instruction`: dispatch on the nibble tuple.  The
Rust `match` arms are disjoint, so the if-chain in source order is the
same dispatch.  `keycode` is the optional sampled key; `random_value`
models the `rand::random::<u8>()` draw used by the `Cxnn` arm.  The final
arm (unsupported opcode) only prints and leaves the state unchanged. -/
def decode_and_execute_instruction (s : Processor) (instruction : Nat)
    (keycode : Option Nat) (random_value : Nat) : Option Processor :=
  let n1 := nib1 instruction
  let n2 := nib2 instruction
  let n3 := nib3 instruction
  let n4 := nib4 instruction
  let nnn := instruction &&& 0x0FFF
  let nn := instruction &&& 0x00FF
  let x := n2
  let y := n3
  let n := n4
  if n1 = 0x0 ∧ n2 = 0x0 ∧ n3 = 0xE ∧ n4 = 0x0 then
    some (instruction_clear_screen s)
  else if n1 = 0x0 ∧ n2 = 0x0 ∧ n3 = 0xE ∧ n4 = 0xE then
    instruction_return s
  else if n1 = 0x6 then some (instruction_set s x nn)
  else if n1 = 0x7 then some (instruction_add s x nn)
  else if n1 = 0x1 then some (instruction_jmp s nnn)
  else if n1 = 0x2 then instruction_call_subroutine s nnn
  else if n1 = 0xA then some (instruction_set_index s nnn)
  else if n1 = 0xB then some (instruction_jump_with_offset s nnn)
  else if n1 = 0xC then some (instruction_random s x nn random_value)
  else if n1 = 0xD then instruction_draw_display s x y n
  else if n1 = 0x3 then some (instruction_skip_equal s x nn)
  else if n1 = 0xE ∧ n3 = 0x9 ∧ n4 = 0xE then
    match keycode with
    | none => none
    | some k => some (instruction_skip_key s x k)
  else if n1 = 0xE ∧ n3 = 0xA ∧ n4 = 0x1 then
    match keycode with
    | none => none
    | some k => some (instruction_skip_not_key s x k)
  else if n1 = 0x4 then some (instruction_skip_not_equal s x nn)
  else if n1 = 0x5 ∧ n4 = 0x0 then some (instruction_skip_register_equal s x y)
  else if n1 = 0x9 ∧ n4 = 0x0 then some (instruction_skip_register_not_equal s x y)
  else if n1 = 0x8 ∧ n4 = 0x0 then some (instruction_alu_set s x y)
  else if n1 = 0x8 ∧ n4 = 0x1 then some (instruction_alu_or s x y)
  else if n1 = 0x8 ∧ n4 = 0x2 then some (instruction_alu_and s x y)
  else if n1 = 0x8 ∧ n4 = 0x3 then some (instruction_alu_xor s x y)
  else if n1 = 0x8 ∧ n4 = 0x4 then some (instruction_alu_add s x y)
  else if n1 = 0x8 ∧ n4 = 0x5 then some (instruction_alu_subtract s x y)
  else if n1 = 0x8 ∧ n4 = 0x7 then some (instruction_alu_subtract s y x)
  else if n1 = 0x8 ∧ n4 = 0x6 then some (instruction_alu_shift s x y false)
  else if n1 = 0x8 ∧ n4 = 0xE then some (instruction_alu_shift s x y true)
  else some s

/-- The nibble tuples handled by some arm of `decode_and_execute_instruction`
(in source order); its negation is the "unsupported opcode" default arm. -/
def supportedOpcode (instruction : Nat) : Prop :=
  let n1 := nib1 instruction
  let n2 := nib2 instruction
  let n3 := nib3 instruction
  let n4 := nib4 instruction
  (n1 = 0x0 ∧ n2 = 0x0 ∧ n3 = 0xE ∧ n4 = 0x0) ∨
  (n1 = 0x0 ∧ n2 = 0x0 ∧ n3 = 0xE ∧ n4 = 0xE) ∨
  n1 = 0x6 ∨ n1 = 0x7 ∨ n1 = 0x1 ∨ n1 = 0x2 ∨ n1 = 0xA ∨ n1 = 0xB ∨
  n1 = 0xC ∨ n1 = 0xD ∨ n1 = 0x3 ∨
  (n1 = 0xE ∧ n3 = 0x9 ∧ n4 = 0xE) ∨
  (n1 = 0xE ∧ n3 = 0xA ∧ n4 = 0x1) ∨
  n1 = 0x4 ∨ (n1 = 0x5 ∧ n4 = 0x0) ∨ (n1 = 0x9 ∧ n4 = 0x0) ∨
  (n1 = 0x8 ∧ n4 = 0x0) ∨ (n1 = 0x8 ∧ n4 = 0x1) ∨ (n1 = 0x8 ∧ n4 = 0x2) ∨
  (n1 = 0x8 ∧ n4 = 0x3) ∨ (n1 = 0x8 ∧ n4 = 0x4) ∨ (n1 = 0x8 ∧ n4 = 0x5) ∨
  (n1 = 0x8 ∧ n4 = 0x7) ∨ (n1 = 0x8 ∧ n4 = 0x6) ∨ (n1 = 0x8 ∧ n4 = 0xE)

instance (instruction : Nat) : Decidable (supportedOpcode instruction) := by
  unfold supportedOpcode
  infer_instance

/-- One iteration of the run loop's fetch-decode-execute (the body of
`start`, minus the sleep): fetch the instruction (advancing `pc` by 2),
then decode and execute it. -/
def cycle (s : Processor) (keycode : Option Nat) (random_value : Nat) :
    Option Processor :=
  (get_instruction s).bind fun p =>
    decode_and_execute_instruction p.2 p.1 keycode random_value

/-- A concrete all-zero machine state (pc at the program start, as
`Processor::new` sets it), used to build concrete test states. -/
def zeroProc : Processor :=
  { ram := fun _ => 0, display := fun _ _ => 0, stack := fun _ => 0,
    var_registers := fun _ => 0, pc := CHIP8_PROGRAM_MEMORY_START,
    index_register := 0, sp := 0, sound_timer := 0, delay_timer := 0 }

/-- A concrete state with V2 = 3 and V3 = 10, used to exercise the
subtract opcodes. -/
def subTestState : Processor :=
  { zeroProc with var_registers := upd (upd zeroProc.var_registers 2 3) 3 10 }

section DrawLemmas

variable (ram : Nat → Nat) (index_register row col : Nat)

/-- Cells not written by any loop index in `L` are untouched by the draw fold. -/
lemma foldl_drawStep_not_mem (L : List (Nat × Nat)) (disp : Nat → Nat → Nat) (vf r c : Nat)
    (h : ∀ p ∈ L, drawLoc row col p ≠ (r, c)) :
    (L.foldl (drawStep ram index_register row col) (disp, vf)).1 r c = disp r c := by
  induction L generalizing disp vf with
  | nil => rfl
  | cons a L ih =>
      have ha := h a (List.mem_cons_self a L)
      rw [List.foldl_cons]
      rw [ih _ _ (fun p hp => h p (List.mem_cons_of_mem a hp))]
      simp only [drawStep]
      have : ¬ (r = (drawLoc row col a).1 ∧ c = (drawLoc row col a).2) := by
        intro hrc
        exact ha (Prod.ext hrc.1.symm hrc.2.symm)
      simp [this]

/-- The cell written by a loop index `p ∈ L` holds its old value XORed with
the sprite bit of `p`, provided the loop indices of `L` write pairwise
distinct cells. -/
lemma foldl_drawStep_mem (L : List (Nat × Nat))
    (hpw : L.Pairwise fun p q => drawLoc row col p ≠ drawLoc row col q)
    (disp : Nat → Nat → Nat) (vf : Nat) (p : Nat × Nat) (hp : p ∈ L) :
    (L.foldl (drawStep ram index_register row col) (disp, vf)).1
        (drawLoc row col p).1 (drawLoc row col p).2
      = disp (drawLoc row col p).1 (drawLoc row col p).2
          ^^^ spriteBit ram index_register p := by
  induction L generalizing disp vf with
  | nil => cases hp
  | cons a L ih =>
      rw [List.foldl_cons]
      rcases List.mem_cons.mp hp with rfl | hpL
      · have ha : ∀ q ∈ L, drawLoc row col q ≠ drawLoc row col p := by
          intro q hq
          exact fun h => (List.pairwise_cons.mp hpw).1 q hq h.symm
        rw [foldl_drawStep_not_mem ram index_register row col L _ _ _ _
              (fun q hq h => ha q hq (by rw [h]))]
        simp [drawStep]
      · have hne : drawLoc row col a ≠ drawLoc row col p :=
          (List.pairwise_cons.mp hpw).1 p hpL
        rw [ih (List.pairwise_cons.mp hpw).2 _ _ hpL]
        simp only [drawStep]
        have : ¬ ((drawLoc row col p).1 = (drawLoc row col a).1 ∧
                  (drawLoc row col p).2 = (drawLoc row col a).2) := by
          intro hrc
          exact hne (Prod.ext hrc.1.symm hrc.2.symm)
        simp [this]

/-- The VF accumulator of the draw fold ends at 1 exactly when some loop
index sees a collision against the pre-draw display, provided the loop
indices write pairwise distinct cells. -/
lemma foldl_drawStep_vf (L : List (Nat × Nat))
    (hpw : L.Pairwise fun p q => drawLoc row col p ≠ drawLoc row col q)
    (disp : Nat → Nat → Nat) (vf : Nat) :
    (L.foldl (drawStep ram index_register row col) (disp, vf)).2
      = if (∃ p ∈ L, spriteBit ram index_register p = 1 ∧
              disp (drawLoc row col p).1 (drawLoc row col p).2 = 1)
        then 1 else vf := by
  induction L generalizing disp vf with
  | nil => simp
  | cons a L ih =>
      rw [List.foldl_cons]
      rw [ih (List.pairwise_cons.mp hpw).2]
      have ha : ∀ q ∈ L, drawLoc row col q ≠ drawLoc row col a := by
        intro q hq h
        exact (List.pairwise_cons.mp hpw).1 q hq h.symm
      simp only [drawStep]
      by_cases hcol : spriteBit ram index_register a = 1 ∧
          disp (drawLoc row col a).1 (drawLoc row col a).2 = 1
      · simp only [if_pos hcol]
        have hex : ∃ p ∈ a :: L, spriteBit ram index_register p = 1 ∧
            disp (drawLoc row col p).1 (drawLoc row col p).2 = 1 :=
          ⟨a, List.mem_cons_self a L, hcol⟩
        rw [if_pos hex]
        split_ifs <;> rfl
      · simp only [if_neg hcol]
        have heq : ∀ q ∈ L,
            (fun r' c' => if r' = (drawLoc row col a).1 ∧ c' = (drawLoc row col a).2
                then disp (drawLoc row col a).1 (drawLoc row col a).2
                    ^^^ spriteBit ram index_register a
                else disp r' c') (drawLoc row col q).1 (drawLoc row col q).2
              = disp (drawLoc row col q).1 (drawLoc row col q).2 := by
          intro q hq
          have : ¬ ((drawLoc row col q).1 = (drawLoc row col a).1 ∧
                    (drawLoc row col q).2 = (drawLoc row col a).2) := by
            intro hrc
            exact ha q hq (Prod.ext hrc.1 hrc.2)
          simp [this]
        by_cases hex : ∃ p ∈ L, spriteBit ram index_register p = 1 ∧
            disp (drawLoc row col p).1 (drawLoc row col p).2 = 1
        · obtain ⟨p, hpL, hpc⟩ := hex
          have hex1 : ∃ p ∈ L, spriteBit ram index_register p = 1 ∧
              (fun r' c' => if r' = (drawLoc row col a).1 ∧
                    c' = (drawLoc row col a).2
                  then disp (drawLoc row col a).1 (drawLoc row col a).2
                      ^^^ spriteBit ram index_register a
                  else disp r' c') (drawLoc row col p).1 (drawLoc row col p).2 = 1 :=
            ⟨p, hpL, hpc.1, by rw [heq p hpL]; exact hpc.2⟩
          have hex2 : ∃ p ∈ a :: L, spriteBit ram index_register p = 1 ∧
              disp (drawLoc row col p).1 (drawLoc row col p).2 = 1 :=
            ⟨p, List.mem_cons_of_mem a hpL, hpc⟩
          rw [if_pos hex1, if_pos hex2]
        · have hex1 : ¬ ∃ p ∈ L, spriteBit ram index_register p = 1 ∧
              (fun r' c' => if r' = (drawLoc row col a).1 ∧
                    c' = (drawLoc row col a).2
                  then disp (drawLoc row col a).1 (drawLoc row col a).2
                      ^^^ spriteBit ram index_register a
                  else disp r' c') (drawLoc row col p).1 (drawLoc row col p).2 = 1 := by
            intro ⟨p, hpL, hpc⟩
            exact hex ⟨p, hpL, hpc.1, by rw [← heq p hpL]; exact hpc.2⟩
          have hex2 : ¬ ∃ p ∈ a :: L, spriteBit ram index_register p = 1 ∧
              disp (drawLoc row col p).1 (drawLoc row col p).2 = 1 := by
            intro ⟨p, hpL, hpc⟩
            rcases List.mem_cons.mp hpL with rfl | hpL'
            · exact hcol ⟨hpc.1, hpc.2⟩
            · exact hex ⟨p, hpL', hpc⟩
          rw [if_neg hex1, if_neg hex2]

end DrawLemmas

lemma pairwise_ne_of_nodup_injOn {α β : Type} (f : α → β) (l : List α) (hn : l.Nodup)
    (hinj : ∀ p ∈ l, ∀ q ∈ l, f p = f q → p = q) :
    l.Pairwise fun p q => f p ≠ f q :=
  hn.imp_of_mem fun ha hb hne hfe => hne (hinj _ ha _ hb hfe)

lemma mem_drawPairs {height : Nat} {p : Nat × Nat} :
    p ∈ drawPairs height ↔ p.1 < height ∧ p.2 < 8 := by
  obtain ⟨i, j⟩ := p
  simp [drawPairs, List.pair_mem_product, List.mem_range]

/-- A sprite of at most 32 rows writes pairwise distinct screen cells:
the row offsets are distinct mod 32 and the bit offsets distinct mod 64. -/
lemma drawPairs_pairwise (row col height : Nat) (hh : height ≤ 32) :
    (drawPairs height).Pairwise fun p q => drawLoc row col p ≠ drawLoc row col q := by
  apply pairwise_ne_of_nodup_injOn
  · exact (List.nodup_range height).product (List.nodup_range 8)
  · intro p hp q hq hfe
    obtain ⟨hp1, hp2⟩ := mem_drawPairs.mp hp
    obtain ⟨hq1, hq2⟩ := mem_drawPairs.mp hq
    obtain ⟨i, j⟩ := p
    obtain ⟨i', j'⟩ := q
    simp only [drawLoc, Prod.mk.injEq] at hfe
    simp only at hp1 hp2 hq1 hq2
    have hi : i = i' := by omega
    have hj : j = j' := by omega
    rw [hi, hj]

/-- Characterization of `instruction_draw_display` for a sprite of at most
32 rows that stays inside memory: it succeeds, leaves everything but the
display and VF alone, XORs each sprite bit into its (distinct) screen
cell, and sets VF to 1 exactly when some sprite bit collides with an
already-set pixel of the pre-draw display. -/
lemma instruction_draw_display_spec (s : Processor) (vx vy height : Nat)
    (hh : height ≤ 32)
    (hram : ∀ i < height, s.index_register + i < CHIP8_MEMORY) :
    ∃ s1, instruction_draw_display s vx vy height = some s1 ∧
      s1.ram = s.ram ∧ s1.stack = s.stack ∧ s1.pc = s.pc ∧
      s1.index_register = s.index_register ∧ s1.sp = s.sp ∧
      s1.sound_timer = s.sound_timer ∧ s1.delay_timer = s.delay_timer ∧
      (∀ i, i ≠ CHIP8_VF_INDEX → s1.var_registers i = s.var_registers i) ∧
      (∀ p ∈ drawPairs height,
        s1.display (drawLoc (s.var_registers vy) (s.var_registers vx) p).1
            (drawLoc (s.var_registers vy) (s.var_registers vx) p).2
          = s.display (drawLoc (s.var_registers vy) (s.var_registers vx) p).1
              (drawLoc (s.var_registers vy) (s.var_registers vx) p).2
            ^^^ spriteBit s.ram s.index_register p) ∧
      (∀ r c, (∀ p ∈ drawPairs height,
          drawLoc (s.var_registers vy) (s.var_registers vx) p ≠ (r, c)) →
        s1.display r c = s.display r c) ∧
      (s1.var_registers CHIP8_VF_INDEX =
        if ∃ p ∈ drawPairs height, spriteBit s.ram s.index_register p = 1 ∧
            s.display (drawLoc (s.var_registers vy) (s.var_registers vx) p).1
              (drawLoc (s.var_registers vy) (s.var_registers vx) p).2 = 1
        then 1 else 0) := by
  have hpw := drawPairs_pairwise (s.var_registers vy) (s.var_registers vx) height hh
  refine ⟨{ s with
      display := ((drawPairs height).foldl
        (drawStep s.ram s.index_register (s.var_registers vy) (s.var_registers vx))
        (s.display, 0)).1,
      var_registers := upd s.var_registers CHIP8_VF_INDEX
        ((drawPairs height).foldl
          (drawStep s.ram s.index_register (s.var_registers vy) (s.var_registers vx))
          (s.display, 0)).2 },
    by simp only [instruction_draw_display, if_pos hram], rfl, rfl, rfl, rfl,
    rfl, rfl, rfl, ?_, ?_, ?_, ?_⟩
  · intro i hi
    simp [upd, hi]
  · intro p hp
    exact foldl_drawStep_mem s.ram s.index_register _ _ _ hpw _ _ p hp
  · intro r c h
    exact foldl_drawStep_not_mem s.ram s.index_register _ _ _ _ _ r c h
  · simp only [upd, if_pos rfl]
    exact foldl_drawStep_vf s.ram s.index_register _ _ _ hpw _ _

lemma and_one_eq_testBit (b : Nat) : b &&& 0x01 = if b.testBit 0 then 1 else 0 := by
  rw [Nat.and_one_is_mod, Nat.testBit_zero]
  rcases Nat.mod_two_eq_zero_or_one b with h | h <;> simp [h]

lemma and_x80_eq_testBit (b : Nat) : b &&& 0x80 = if b.testBit 7 then 128 else 0 := by
  have h := Nat.and_two_pow b 7
  norm_num at h
  rw [h]
  split_ifs <;> simp_all

lemma alu_subtract_vx (s : Processor) (vx vy : Nat) (hx : vx ≠ 0xF) :
    (instruction_alu_subtract s vx vy).var_registers vx
      = (s.var_registers vx + 256 - s.var_registers vy) % 256 := by
  simp only [instruction_alu_subtract]
  split_ifs <;> simp [upd, hx, CHIP8_VF_INDEX]

lemma alu_subtract_vf (s : Processor) (vx vy : Nat) (hx : vx ≠ 0xF) :
    (instruction_alu_subtract s vx vy).var_registers 0xF
      = (if s.var_registers vy < s.var_registers vx then 1
         else if s.var_registers vx < s.var_registers vy then 0
         else s.var_registers 0xF) := by
  simp only [instruction_alu_subtract]
  split_ifs with h1 h2 h2 <;> simp [upd, hx, CHIP8_VF_INDEX] <;> omega

lemma alu_subtract_other (s : Processor) (vx vy i : Nat)
    (hi1 : i ≠ vx) (hi2 : i ≠ 0xF) :
    (instruction_alu_subtract s vx vy).var_registers i = s.var_registers i := by
  simp only [instruction_alu_subtract]
  split_ifs <;> simp [upd, hi1, hi2, CHIP8_VF_INDEX]

/-- **C1** (corrected).  At the dispatch level, with 8-bit operands
`a = Vx` and `b = Vy`: `8xy5` stores the wrapped difference
`(a - b) mod 256` in Vx (destination distinct from VF); but `8xy7` is
dispatched as `instruction_alu_subtract(y, x)`, whose first argument is
the destination, so the wrapped difference `(b - a) mod 256` lands in
**Vy** — not in Vx as the claim states — and Vx is left unchanged (when
`x ≠ y` and `x ≠ 0xF`).  For both opcodes VF becomes 1 when the minuend
exceeds the subtrahend, becomes 0 when it is smaller, and — contrary to
the claim's "VF = 1 iff no borrow, including equal operands" — **keeps
its prior value** when the operands are equal, because the handler sets
VF only on strict no-borrow and clears it only on underflow. -/
theorem instruction_alu_subtract_correct (s : Processor) (instruction : Nat)
    (keycode : Option Nat) (random_value : Nat)
    (ha : s.var_registers (nib2 instruction) < 256)
    (hb : s.var_registers (nib3 instruction) < 256) :
    ((nib1 instruction = 0x8 ∧ nib4 instruction = 0x5) →
      nib2 instruction ≠ 0xF →
      ∃ s', decode_and_execute_instruction s instruction keycode random_value
          = some s' ∧
        ((s'.var_registers (nib2 instruction) : ℤ)
          = ((s.var_registers (nib2 instruction) : ℤ)
              - (s.var_registers (nib3 instruction) : ℤ)) % 256) ∧
        s'.var_registers 0xF
          = (if s.var_registers (nib3 instruction)
                < s.var_registers (nib2 instruction) then 1
             else if s.var_registers (nib2 instruction)
                < s.var_registers (nib3 instruction) then 0
             else s.var_registers 0xF)) ∧
    ((nib1 instruction = 0x8 ∧ nib4 instruction = 0x7) →
      nib3 instruction ≠ 0xF →
      ∃ s', decode_and_execute_instruction s instruction keycode random_value
          = some s' ∧
        ((s'.var_registers (nib3 instruction) : ℤ)
          = ((s.var_registers (nib3 instruction) : ℤ)
              - (s.var_registers (nib2 instruction) : ℤ)) % 256) ∧
        s'.var_registers 0xF
          = (if s.var_registers (nib2 instruction)
                < s.var_registers (nib3 instruction) then 1
             else if s.var_registers (nib3 instruction)
                < s.var_registers (nib2 instruction) then 0
             else s.var_registers 0xF) ∧
        (nib2 instruction ≠ nib3 instruction → nib2 instruction ≠ 0xF →
          s'.var_registers (nib2 instruction)
            = s.var_registers (nib2 instruction))) := by
  constructor
  · rintro ⟨h1, h4⟩ hx
    refine ⟨instruction_alu_subtract s (nib2 instruction) (nib3 instruction),
      ?_, ?_, ?_⟩
    · simp [decode_and_execute_instruction, h1, h4]
    · rw [alu_subtract_vx _ _ _ hx]
      omega
    · exact alu_subtract_vf _ _ _ hx
  · rintro ⟨h1, h4⟩ hy
    refine ⟨instruction_alu_subtract s (nib3 instruction) (nib2 instruction),
      ?_, ?_, ?_, ?_⟩
    · simp [decode_and_execute_instruction, h1, h4]
    · rw [alu_subtract_vx _ _ _ hy]
      omega
    · exact alu_subtract_vf _ _ _ hy
    · intro hxy hx
      exact alu_subtract_other s (nib3 instruction) (nib2 instruction)
        (nib2 instruction) hxy hx

/-- Witness for C1's theorem on V2 = 3, V3 = 10: opcode 0x8235 (`8xy5`)
puts (3 − 10) mod 256 = 249 in V2 with VF = 0; opcode 0x8237 (`8xy7`)
puts (10 − 3) mod 256 = 7 in V3 with VF = 1 and V2 untouched. -/
theorem instruction_alu_subtract_correct_witness :
    (subTestState.var_registers (nib2 0x8235) < 256 ∧
      subTestState.var_registers (nib3 0x8235) < 256 ∧
      (nib1 0x8235 = 0x8 ∧ nib4 0x8235 = 0x5) ∧ nib2 0x8235 ≠ 0xF ∧
      (nib1 0x8237 = 0x8 ∧ nib4 0x8237 = 0x7) ∧ nib3 0x8237 ≠ 0xF) ∧
    (∃ s', decode_and_execute_instruction subTestState 0x8235 none 0 = some s' ∧
      ((s'.var_registers (nib2 0x8235) : ℤ)
        = ((subTestState.var_registers (nib2 0x8235) : ℤ)
            - (subTestState.var_registers (nib3 0x8235) : ℤ)) % 256) ∧
      s'.var_registers 0xF
        = (if subTestState.var_registers (nib3 0x8235)
              < subTestState.var_registers (nib2 0x8235) then 1
           else if subTestState.var_registers (nib2 0x8235)
              < subTestState.var_registers (nib3 0x8235) then 0
           else subTestState.var_registers 0xF)) ∧
    (∃ s', decode_and_execute_instruction subTestState 0x8237 none 0 = some s' ∧
      ((s'.var_registers (nib3 0x8237) : ℤ)
        = ((subTestState.var_registers (nib3 0x8237) : ℤ)
            - (subTestState.var_registers (nib2 0x8237) : ℤ)) % 256) ∧
      s'.var_registers 0xF
        = (if subTestState.var_registers (nib2 0x8237)
              < subTestState.var_registers (nib3 0x8237) then 1
           else if subTestState.var_registers (nib3 0x8237)
              < subTestState.var_registers (nib2 0x8237) then 0
           else subTestState.var_registers 0xF) ∧
      (nib2 0x8237 ≠ nib3 0x8237 → nib2 0x8237 ≠ 0xF →
        s'.var_registers (nib2 0x8237)
          = subTestState.var_registers (nib2 0x8237))) :=
  ⟨⟨by decide, by decide, ⟨by decide, by decide⟩, by decide,
      ⟨by decide, by decide⟩, by decide⟩,
    (instruction_alu_subtract_correct subTestState 0x8235 none 0
        (by decide) (by decide)).1 ⟨by decide, by decide⟩ (by decide),
    (instruction_alu_subtract_correct subTestState 0x8237 none 0
        (by decide) (by decide)).2 ⟨by decide, by decide⟩ (by decide)⟩

/-- **C1** counterexample.  Executing 0x8237 (`8xy7` with x = 2, y = 3) on
V2 = 3, V3 = 10 stores the wrapped difference Vy − Vx = 7 into **Vy**
(V3) and leaves Vx (V2) unchanged at 3, not 7 as the claim's "stores the
wrapped difference in Vx" requires; and with equal operands V0 = V1 = 5
and VF initially 0, the subtract handler leaves VF = 0, not the 1 the
claim requires for the no-borrow equal-operands case. -/
theorem subtract_opcode_counterexample :
    (decode_and_execute_instruction subTestState 0x8237 none 0).map
        (fun s' => s'.var_registers 2) = some 3 ∧
    ¬ ((decode_and_execute_instruction subTestState 0x8237 none 0).map
        (fun s' => s'.var_registers 2) = some 7) ∧
    (decode_and_execute_instruction subTestState 0x8237 none 0).map
        (fun s' => s'.var_registers 3) = some 7 ∧
    ¬ ((instruction_alu_subtract
        { zeroProc with var_registers := upd (upd zeroProc.var_registers 0 5) 1 5 }
        0 1).var_registers 0xF = 1) := by
  refine ⟨by decide, by decide, by decide, by decide⟩

/-- **C2** (corrected).  Both shifts first overwrite Vx with Vy's value
`b` and then shift that copy, and VF receives the masked shifted-out bit
of the copied value: for the right shift `8xy6` this is `b & 1`, which is
the claimed 0-or-1 bit; but for the left shift `8xyE` the handler stores
`b & 0x80`, i.e. **0 or 128** — not the 0-or-1 value the original claim
states.  (Destination distinct from VF.) -/
theorem instruction_alu_shift_correct (s : Processor) (vx vy : Nat)
    (hx : vx ≠ 0xF) :
    ((instruction_alu_shift s vx vy false).var_registers vx
        = s.var_registers vy / 2 ∧
      (instruction_alu_shift s vx vy false).var_registers 0xF
        = (if (s.var_registers vy).testBit 0 then 1 else 0)) ∧
    ((instruction_alu_shift s vx vy true).var_registers vx
        = 2 * s.var_registers vy % 256 ∧
      (instruction_alu_shift s vx vy true).var_registers 0xF
        = (if (s.var_registers vy).testBit 7 then 128 else 0)) := by
  have hx2 : (0xF : Nat) ≠ vx := fun h => hx h.symm
  refine ⟨⟨?_, ?_⟩, ⟨?_, ?_⟩⟩ <;>
    simp [instruction_alu_shift, upd, hx, hx2, CHIP8_VF_INDEX,
      Nat.shiftRight_eq_div_pow, Nat.shiftLeft_eq, ← and_one_eq_testBit,
      ← and_x80_eq_testBit] <;>
    (try ring_nf) <;> (try (split_ifs <;> omega))

/-- Witness for C2's theorem at a state with V0 = 0x81 (both end bits
set): right shift gives Vx = 0x40, VF = 1; left shift gives Vx = 0x02,
VF = 128. -/
theorem instruction_alu_shift_correct_witness :
    ((1 : Nat) ≠ 0xF) ∧
    (((instruction_alu_shift
          { zeroProc with var_registers := upd zeroProc.var_registers 0 0x81 }
          1 0 false).var_registers 1
        = ({ zeroProc with var_registers := upd zeroProc.var_registers 0 0x81 }
            : Processor).var_registers 0 / 2 ∧
      (instruction_alu_shift
          { zeroProc with var_registers := upd zeroProc.var_registers 0 0x81 }
          1 0 false).var_registers 0xF
        = (if (({ zeroProc with var_registers := upd zeroProc.var_registers 0 0x81 }
            : Processor).var_registers 0).testBit 0 then 1 else 0)) ∧
    ((instruction_alu_shift
          { zeroProc with var_registers := upd zeroProc.var_registers 0 0x81 }
          1 0 true).var_registers 1
        = 2 * ({ zeroProc with var_registers := upd zeroProc.var_registers 0 0x81 }
            : Processor).var_registers 0 % 256 ∧
      (instruction_alu_shift
          { zeroProc with var_registers := upd zeroProc.var_registers 0 0x81 }
          1 0 true).var_registers 0xF
        = (if (({ zeroProc with var_registers := upd zeroProc.var_registers 0 0x81 }
            : Processor).var_registers 0).testBit 7 then 128 else 0))) :=
  ⟨by decide,
    instruction_alu_shift_correct
      { zeroProc with var_registers := upd zeroProc.var_registers 0 0x81 }
      1 0 (by decide)⟩

/-- **C2** counterexample.  With V0 = 0x80, the left shift `8xyE`
(copying V0 into V1) stores 128 in VF, not the bit value 1 the claim
states for a set bit 7. -/
theorem shift_left_vf_counterexample :
    (instruction_alu_shift
        { zeroProc with var_registers := upd zeroProc.var_registers 0 0x80 }
        1 0 true).var_registers 0xF = 128 ∧
    ¬ ((instruction_alu_shift
        { zeroProc with var_registers := upd zeroProc.var_registers 0 0x80 }
        1 0 true).var_registers 0xF = 1) := by
  constructor
  · decide
  · decide

/-- **C4** (confirmed).  For `8xy4` with destination distinct from VF and
8-bit operands `a`, `b`: Vx receives `(a + b) mod 256`, and VF becomes 1
iff `a + b ≥ 256` (0 otherwise). -/
theorem instruction_alu_add_correct (s : Processor) (vx vy : Nat)
    (hx : vx ≠ 0xF)
    (ha : s.var_registers vx < 256) (hb : s.var_registers vy < 256) :
    (instruction_alu_add s vx vy).var_registers vx
        = (s.var_registers vx + s.var_registers vy) % 256 ∧
    (instruction_alu_add s vx vy).var_registers 0xF
        = (if 256 ≤ s.var_registers vx + s.var_registers vy then 1 else 0) ∧
    ((instruction_alu_add s vx vy).var_registers 0xF = 1 ↔
        256 ≤ s.var_registers vx + s.var_registers vy) := by
  unfold instruction_alu_add
  by_cases h : 256 ≤ s.var_registers vx + s.var_registers vy <;>
    simp [h, upd, CHIP8_VF_INDEX, hx]

/-- Witness for C4's theorem at a state with V2 = 200, V3 = 100
(sum 300 ≥ 256: wrapped result 44, carry 1). -/
theorem instruction_alu_add_correct_witness :
    ((2 : Nat) ≠ 0xF ∧
      ({ zeroProc with var_registers := upd (upd zeroProc.var_registers 2 200) 3 100 }
        : Processor).var_registers 2 < 256 ∧
      ({ zeroProc with var_registers := upd (upd zeroProc.var_registers 2 200) 3 100 }
        : Processor).var_registers 3 < 256) ∧
    ((instruction_alu_add
        { zeroProc with var_registers := upd (upd zeroProc.var_registers 2 200) 3 100 }
        2 3).var_registers 2
      = (({ zeroProc with var_registers := upd (upd zeroProc.var_registers 2 200) 3 100 }
          : Processor).var_registers 2 +
        ({ zeroProc with var_registers := upd (upd zeroProc.var_registers 2 200) 3 100 }
          : Processor).var_registers 3) % 256 ∧
    (instruction_alu_add
        { zeroProc with var_registers := upd (upd zeroProc.var_registers 2 200) 3 100 }
        2 3).var_registers 0xF
      = (if 256 ≤ ({ zeroProc with
            var_registers := upd (upd zeroProc.var_registers 2 200) 3 100 }
          : Processor).var_registers 2 +
          ({ zeroProc with var_registers := upd (upd zeroProc.var_registers 2 200) 3 100 }
          : Processor).var_registers 3 then 1 else 0) ∧
    ((instruction_alu_add
        { zeroProc with var_registers := upd (upd zeroProc.var_registers 2 200) 3 100 }
        2 3).var_registers 0xF = 1 ↔
      256 ≤ ({ zeroProc with
            var_registers := upd (upd zeroProc.var_registers 2 200) 3 100 }
          : Processor).var_registers 2 +
        ({ zeroProc with var_registers := upd (upd zeroProc.var_registers 2 200) 3 100 }
          : Processor).var_registers 3)) :=
  ⟨⟨by decide, by decide, by decide⟩,
    instruction_alu_add_correct
      { zeroProc with var_registers := upd (upd zeroProc.var_registers 2 200) 3 100 }
      2 3 (by decide) (by decide) (by decide)⟩

/-- **C10** (confirmed).  When the `8xy4` destination selector is 0xF
itself, the handler's write order (wrapped sum into Vx first, carry into
VF afterwards) makes VF end the instruction holding exactly the carry
flag — 0 or 1, never the arithmetic sum. -/
theorem alu_add_vf_destination (s : Processor) (vy : Nat) :
    (instruction_alu_add s 0xF vy).var_registers 0xF
        = (if 256 ≤ s.var_registers 0xF + s.var_registers vy then 1 else 0) ∧
    ((instruction_alu_add s 0xF vy).var_registers 0xF = 0 ∨
      (instruction_alu_add s 0xF vy).var_registers 0xF = 1) := by
  have h : (instruction_alu_add s 0xF vy).var_registers 0xF
      = (if 256 ≤ s.var_registers 0xF + s.var_registers vy then 1 else 0) := by
    unfold instruction_alu_add
    by_cases h : 256 ≤ s.var_registers 0xF + s.var_registers vy <;>
      simp [h, upd, CHIP8_VF_INDEX]
  refine ⟨h, ?_⟩
  rw [h]
  split_ifs <;> simp

/-- **C3** (corrected).  Drawing the same `Dxyn` sprite twice with
identical inputs (coordinate registers distinct from VF, which the draw
clobbers) returns every framebuffer cell to its pre-draw value; from an
all-clear screen the first draw leaves VF = 0, and the second draw sets
VF = 1 **iff the sprite has at least one set bit in its `n` rows** — for
an all-zero (or empty) sprite nothing collides and VF stays 0, contrary
to the original claim's unconditional "second draw sets VF = 1". -/
theorem draw_twice_correct (s : Processor) (vx vy height : Nat)
    (hx : vx ≠ 0xF) (hy : vy ≠ 0xF) (hh : height ≤ 32)
    (hram : ∀ i < height, s.index_register + i < CHIP8_MEMORY) :
    ∃ s1 s2, instruction_draw_display s vx vy height = some s1 ∧
      instruction_draw_display s1 vx vy height = some s2 ∧
      (∀ r c, s2.display r c = s.display r c) ∧
      ((∀ r c, s.display r c = 0) →
        s1.var_registers 0xF = 0 ∧
        (s2.var_registers 0xF = 1 ↔
          ∃ p ∈ drawPairs height, spriteBit s.ram s.index_register p = 1)) := by
  obtain ⟨s1, he1, hram1, _, _, hidx1, _, _, _, hreg1, hmem1, hout1, hvf1⟩ :=
    instruction_draw_display_spec s vx vy height hh hram
  have hram' : ∀ i < height, s1.index_register + i < CHIP8_MEMORY := by
    rw [hidx1]; exact hram
  obtain ⟨s2, he2, _, _, _, _, _, _, _, _, hmem2, hout2, hvf2⟩ :=
    instruction_draw_display_spec s1 vx vy height hh hram'
  have hrow : s1.var_registers vy = s.var_registers vy := hreg1 vy hy
  have hcol : s1.var_registers vx = s.var_registers vx := hreg1 vx hx
  rw [hrow, hcol] at hmem2 hout2 hvf2
  rw [hram1, hidx1] at hmem2 hvf2
  refine ⟨s1, s2, he1, he2, ?_, ?_⟩
  · intro r c
    by_cases hex : ∃ p ∈ drawPairs height,
        drawLoc (s.var_registers vy) (s.var_registers vx) p = (r, c)
    · obtain ⟨p, hp, hloc⟩ := hex
      have h1 := hmem1 p hp
      have h2 := hmem2 p hp
      rw [hloc] at h1 h2
      simp only at h1 h2
      rw [h2, h1, Nat.xor_assoc, Nat.xor_self, Nat.xor_zero]
    · push_neg at hex
      exact (hout2 r c hex).trans (hout1 r c hex)
  · intro hclear
    have hnc : ¬ ∃ p ∈ drawPairs height,
        spriteBit s.ram s.index_register p = 1 ∧
        s.display (drawLoc (s.var_registers vy) (s.var_registers vx) p).1
          (drawLoc (s.var_registers vy) (s.var_registers vx) p).2 = 1 := by
      rintro ⟨p, hp, hb, hd⟩
      rw [hclear] at hd
      exact absurd hd (by decide)
    rw [if_neg hnc] at hvf1
    refine ⟨hvf1, ?_⟩
    split_ifs at hvf2 with hcond
    · obtain ⟨p, hp, hb, _⟩ := hcond
      exact ⟨fun _ => ⟨p, hp, hb⟩, fun _ => hvf2⟩
    · constructor
      · intro h
        simp only [CHIP8_VF_INDEX] at hvf2
        rw [hvf2] at h
        exact absurd h (by decide)
      · rintro ⟨p, hp, hb⟩
        exfalso
        apply hcond
        refine ⟨p, hp, hb, ?_⟩
        rw [hmem1 p hp, hclear]
        simp [hb]

/-- Witness for C3's theorem with the one-row sprite byte 0x80 at index 0
drawn at (V0, V1) = (0, 0): bit 7 of the sprite row is set, so the
second draw collides and VF reads 1. -/
theorem draw_twice_correct_witness :
    ((0 : Nat) ≠ 0xF ∧ (1 : Nat) ≠ 0xF ∧ (1 : Nat) ≤ 32 ∧
      (∀ i < 1, ({ zeroProc with ram := fun _ => 0x80 } : Processor).index_register
          + i < CHIP8_MEMORY)) ∧
    (∃ s1 s2, instruction_draw_display
        { zeroProc with ram := fun _ => 0x80 } 0 1 1 = some s1 ∧
      instruction_draw_display s1 0 1 1 = some s2 ∧
      (∀ r c, s2.display r c
        = ({ zeroProc with ram := fun _ => 0x80 } : Processor).display r c) ∧
      ((∀ r c, ({ zeroProc with ram := fun _ => 0x80 } : Processor).display r c = 0) →
        s1.var_registers 0xF = 0 ∧
        (s2.var_registers 0xF = 1 ↔
          ∃ p ∈ drawPairs 1, spriteBit
            ({ zeroProc with ram := fun _ => 0x80 } : Processor).ram
            ({ zeroProc with ram := fun _ => 0x80 } : Processor).index_register
            p = 1))) :=
  ⟨⟨by decide, by decide, by decide, by decide⟩,
    draw_twice_correct { zeroProc with ram := fun _ => 0x80 } 0 1 1
      (by decide) (by decide) (by decide) (by decide)⟩

/-- **C5** (confirmed).  With a non-full call stack, `2nnn` pushes the
post-fetch pc onto the stack (at the stack pointer, which is then
incremented) and jumps; any later state that still holds that return
address at the pushed slot with the stack pointer one above it — in
particular the state immediately after the call — returns via `00EE` to
exactly the pushed pc, so execution resumes where it left off.  (`s.pc`
here is the pc after the call instruction's fetch, since the run loop
fetches, advancing pc by 2, before executing.) -/
theorem call_return_roundtrip (s : Processor) (address : Nat) (hsp : s.sp < 16) :
    ∃ s1, instruction_call_subroutine s address = some s1 ∧
      s1.pc = address ∧ s1.sp = s.sp + 1 ∧ s1.stack s.sp = s.pc ∧
      (∀ t : Processor, t.sp = s.sp + 1 → t.stack s.sp = s.pc →
        ∃ t2, instruction_return t = some t2 ∧ t2.pc = s.pc) := by
  refine ⟨{ s with stack := upd s.stack s.sp s.pc, sp := s.sp + 1, pc := address },
    ?_, rfl, rfl, ?_, ?_⟩
  · unfold instruction_call_subroutine push_addr
    rw [if_pos hsp]
    rfl
  · simp [upd]
  · intro t ht1 ht2
    refine ⟨{ t with sp := t.sp - 1, pc := t.stack (t.sp - 1) }, ?_, ?_⟩
    · unfold instruction_return pop_addr
      rw [if_neg (by omega : ¬ t.sp = 0)]
      rfl
    · show t.stack (t.sp - 1) = s.pc
      rw [ht1, Nat.add_sub_cancel]
      exact ht2

/-- Witness for C5's theorem at the all-zero state (empty stack) calling
address 0x300. -/
theorem call_return_roundtrip_witness :
    zeroProc.sp < 16 ∧
    (∃ s1, instruction_call_subroutine zeroProc 0x300 = some s1 ∧
      s1.pc = 0x300 ∧ s1.sp = zeroProc.sp + 1 ∧ s1.stack zeroProc.sp = zeroProc.pc ∧
      (∀ t : Processor, t.sp = zeroProc.sp + 1 → t.stack zeroProc.sp = zeroProc.pc →
        ∃ t2, instruction_return t = some t2 ∧ t2.pc = zeroProc.pc)) :=
  ⟨by decide, call_return_roundtrip zeroProc 0x300 (by decide)⟩

lemma load_from_spec (prog : List Nat) (ram : Nat → Nat) (addr : Nat) :
    ((∀ i < prog.length, addr + i < CHIP8_MEMORY) →
      ∃ r, load_from ram addr prog = some r ∧
        (∀ i < prog.length, r (addr + i) = prog.getD i 0) ∧
        (∀ a, a < addr ∨ addr + prog.length ≤ a → r a = ram a)) ∧
    ((∃ i, i < prog.length ∧ CHIP8_MEMORY ≤ addr + i) →
      load_from ram addr prog = none) := by
  induction prog generalizing ram addr with
  | nil =>
      refine ⟨fun _ => ⟨ram, rfl, by simp, fun a _ => rfl⟩, ?_⟩
      rintro ⟨i, hi, -⟩
      simp at hi
  | cons b rest ih =>
      constructor
      · intro h
        have h0 : addr < CHIP8_MEMORY := by
          have := h 0 (by simp)
          omega
        obtain ⟨r, hr, hin, hout⟩ := (ih (upd ram addr b) (addr + 1)).1 (by
          intro i hi
          have := h (i + 1) (by simp; omega)
          omega)
        refine ⟨r, ?_, ?_, ?_⟩
        · simp only [load_from]
          rw [if_neg (by omega : ¬ CHIP8_MEMORY ≤ addr)]
          exact hr
        · intro i hi
          cases i with
          | zero =>
              have hr0 := hout addr (Or.inl (by omega))
              simpa [upd] using hr0
          | succ i =>
              have hi' : i < rest.length := by simp at hi; omega
              have harg : addr + (i + 1) = addr + 1 + i := by omega
              rw [List.getD_cons_succ, harg]
              exact hin i hi'
        · intro a ha
          have hne : a ≠ addr := by rcases ha with ha | ha <;> simp at ha ⊢ <;> omega
          rcases ha with ha | ha
          · rw [hout a (Or.inl (by omega))]
            simp [upd, hne]
          · rw [hout a (Or.inr (by simp at ha; omega))]
            simp [upd, hne]
      · rintro ⟨i, hi, hge⟩
        by_cases hA : CHIP8_MEMORY ≤ addr
        · simp only [load_from]
          rw [if_pos hA]
        · simp only [load_from]
          rw [if_neg hA]
          apply (ih (upd ram addr b) (addr + 1)).2
          cases i with
          | zero => omega
          | succ i =>
              refine ⟨i, by simp at hi; omega, by omega⟩

set_option maxRecDepth 4096 in
/-- **C6** (confirmed).  `load_program` copies the program bytes into
memory from 0x200 upward (leaving everything else untouched) and panics
exactly when `0x200 + len > 4096`; in particular a 3584-byte program
loads successfully and a 3585-byte one is fatal. -/
theorem load_program_correct (ram : Nat → Nat) (prog : List Nat) :
    (CHIP8_PROGRAM_MEMORY_START + prog.length ≤ CHIP8_MEMORY →
      ∃ r, load_program ram prog = some r ∧
        (∀ i < prog.length, r (CHIP8_PROGRAM_MEMORY_START + i) = prog.getD i 0) ∧
        (∀ a, a < CHIP8_PROGRAM_MEMORY_START ∨
            CHIP8_PROGRAM_MEMORY_START + prog.length ≤ a → r a = ram a)) ∧
    (CHIP8_MEMORY < CHIP8_PROGRAM_MEMORY_START + prog.length →
      load_program ram prog = none) ∧
    (prog.length = 3584 → (load_program ram prog).isSome) ∧
    (prog.length = 3585 → load_program ram prog = none) := by
  have h := load_from_spec prog ram CHIP8_PROGRAM_MEMORY_START
  simp only [CHIP8_PROGRAM_MEMORY_START, CHIP8_MEMORY] at h ⊢
  simp only [load_program, CHIP8_PROGRAM_MEMORY_START]
  refine ⟨?_, ?_, ?_, ?_⟩
  · intro hle
    exact h.1 (fun i hi => by omega)
  · intro hgt
    exact h.2 ⟨prog.length - 1, by omega, by omega⟩
  · intro hlen
    obtain ⟨r, hr, -, -⟩ := h.1 (fun i hi => by omega)
    rw [hr]
    rfl
  · intro hlen
    exact h.2 ⟨3584, by omega, by omega⟩

/-- Witness for C6's theorem: a one-byte program loads at 0x200; by the
same theorem a 3585-byte program is rejected with no evaluation needed. -/
theorem load_program_correct_witness :
    (CHIP8_PROGRAM_MEMORY_START + [0xAB].length ≤ CHIP8_MEMORY ∧
      ∃ r, load_program zeroProc.ram [0xAB] = some r ∧
        (∀ i < [0xAB].length,
          r (CHIP8_PROGRAM_MEMORY_START + i) = [0xAB].getD i 0) ∧
        (∀ a, a < CHIP8_PROGRAM_MEMORY_START ∨
            CHIP8_PROGRAM_MEMORY_START + [0xAB].length ≤ a →
          r a = zeroProc.ram a)) ∧
    ((List.replicate 3585 0).length = 3585 ∧
      load_program zeroProc.ram (List.replicate 3585 0) = none) :=
  ⟨⟨by decide, (load_program_correct zeroProc.ram [0xAB]).1 (by decide)⟩,
    ⟨by rw [List.length_replicate],
      (load_program_correct zeroProc.ram (List.replicate 3585 0)).2.2.2
        (by rw [List.length_replicate])⟩⟩

/-- **C7** (confirmed).  Push writes at the stack pointer then increments
it, pop decrements then reads; a push at pointer 16 (overflow) and a pop
at pointer 0 (underflow) are exactly the fatal (panicking) cases, and
successful operations keep the pointer within 0..16. -/
theorem stack_pointer_invariant (s : Processor) (address : Nat) :
    (push_addr s address = none ↔ 16 ≤ s.sp) ∧
    (pop_addr s = none ↔ s.sp = 0) ∧
    (∀ s1, push_addr s address = some s1 →
      s1.stack s.sp = address ∧ s1.sp = s.sp + 1 ∧ s1.sp ≤ 16) ∧
    (∀ p, pop_addr s = some p →
      p.1 = s.stack (s.sp - 1) ∧ p.2.sp = s.sp - 1 ∧ (s.sp ≤ 16 → p.2.sp ≤ 16)) := by
  refine ⟨?_, ?_, ?_, ?_⟩
  · unfold push_addr
    split_ifs with h <;> simp <;> omega
  · unfold pop_addr
    split_ifs with h <;> simp [h]
  · intro s1 hs1
    unfold push_addr at hs1
    by_cases h : s.sp < 16
    · rw [if_pos h] at hs1
      obtain rfl := (Option.some.injEq _ _).mp hs1
      exact ⟨by simp [upd], rfl, by show s.sp + 1 ≤ 16; omega⟩
    · rw [if_neg h] at hs1
      exact absurd hs1 (by simp)
  · intro p hp
    unfold pop_addr at hp
    by_cases h : s.sp = 0
    · rw [if_pos h] at hp
      exact absurd hp (by simp)
    · rw [if_neg h] at hp
      obtain rfl := (Option.some.injEq _ _).mp hp
      exact ⟨rfl, rfl, fun _ => by show s.sp - 1 ≤ 16; omega⟩

/-- Witness for C7's theorem: pushing on the all-zero state (pointer 0)
succeeds with pointer 1; the failure equivalences evaluate at that
state. -/
theorem stack_pointer_invariant_witness :
    ((push_addr zeroProc 0x345 = none ↔ 16 ≤ zeroProc.sp) ∧
      (pop_addr zeroProc = none ↔ zeroProc.sp = 0) ∧
      (∀ s1, push_addr zeroProc 0x345 = some s1 →
        s1.stack zeroProc.sp = 0x345 ∧ s1.sp = zeroProc.sp + 1 ∧ s1.sp ≤ 16) ∧
      (∀ p, pop_addr zeroProc = some p →
        p.1 = zeroProc.stack (zeroProc.sp - 1) ∧ p.2.sp = zeroProc.sp - 1 ∧
          (zeroProc.sp ≤ 16 → p.2.sp ≤ 16))) :=
  stack_pointer_invariant zeroProc 0x345

/-- On a nibble tuple matched by no arm, the dispatcher only prints and
returns the state unchanged. -/
lemma decode_unsupported (s : Processor) (instruction : Nat) (keycode : Option Nat)
    (random_value : Nat) (h : ¬ supportedOpcode instruction) :
    decode_and_execute_instruction s instruction keycode random_value = some s := by
  simp only [supportedOpcode, not_or] at h
  obtain ⟨h1, h2, h3, h4, h5, h6, h7, h8, h9, h10, h11, h12, h13, h14, h15, h16,
    h17, h18, h19, h20, h21, h22, h23, h24, h25⟩ := h
  simp only [decode_and_execute_instruction]
  rw [if_neg h1, if_neg h2, if_neg h3, if_neg h4, if_neg h5, if_neg h6, if_neg h7,
    if_neg h8, if_neg h9, if_neg h10, if_neg h11, if_neg h12, if_neg h13,
    if_neg h14, if_neg h15, if_neg h16, if_neg h17, if_neg h18, if_neg h19,
    if_neg h20, if_neg h21, if_neg h22, if_neg h23, if_neg h24, if_neg h25]

/-- **C8** (confirmed).  A cycle whose fetched 16-bit word matches none of
the implemented nibble patterns is non-fatal and leaves every state
component unchanged except the program counter, which ends exactly 2 past
the fetched instruction (the advance made by the fetch itself). -/
theorem unsupported_opcode_noop (s : Processor) (keycode : Option Nat)
    (random_value : Nat) (hpc : s.pc + 1 < CHIP8_MEMORY)
    (h : ¬ supportedOpcode ((s.ram s.pc <<< 8) ||| s.ram (s.pc + 1))) :
    cycle s keycode random_value = some { s with pc := s.pc + 2 } := by
  unfold cycle get_instruction
  rw [if_pos hpc, Option.some_bind]
  exact decode_unsupported _ _ _ _ h

/-- Witness for C8's theorem at the all-zero state, whose fetched word
0x0000 matches no arm: the cycle returns the same state with pc
advanced from 0x200 to 0x202. -/
theorem unsupported_opcode_noop_witness :
    (zeroProc.pc + 1 < CHIP8_MEMORY ∧
      ¬ supportedOpcode ((zeroProc.ram zeroProc.pc <<< 8) |||
        zeroProc.ram (zeroProc.pc + 1))) ∧
    cycle zeroProc none 0 = some { zeroProc with pc := zeroProc.pc + 2 } :=
  ⟨⟨by decide, by decide⟩,
    unsupported_opcode_noop zeroProc none 0 (by decide) (by decide)⟩

/-- **C9** (confirmed).  For the key-skip opcodes `Ex9E` and `ExA1`, an
absent keycode hits `Option::unwrap` and is fatal; with a keycode
present, `Ex9E` adds 2 to pc exactly when Vx equals the keycode, and
`ExA1` adds 2 exactly when Vx differs from it. -/
theorem skip_key_correct (s : Processor) (instruction random_value : Nat) :
    ((nib1 instruction = 0xE ∧ nib3 instruction = 0x9 ∧ nib4 instruction = 0xE) →
      decode_and_execute_instruction s instruction none random_value = none ∧
      (∀ k, decode_and_execute_instruction s instruction (some k) random_value
        = some (if s.var_registers (nib2 instruction) = k
                then { s with pc := s.pc + 2 } else s))) ∧
    ((nib1 instruction = 0xE ∧ nib3 instruction = 0xA ∧ nib4 instruction = 0x1) →
      decode_and_execute_instruction s instruction none random_value = none ∧
      (∀ k, decode_and_execute_instruction s instruction (some k) random_value
        = some (if s.var_registers (nib2 instruction) ≠ k
                then { s with pc := s.pc + 2 } else s))) := by
  constructor
  · rintro ⟨h1, h3, h4⟩
    constructor
    · simp [decode_and_execute_instruction, h1, h3, h4]
    · intro k
      simp [decode_and_execute_instruction, h1, h3, h4, instruction_skip_key,
        apply_ite]
      split_ifs with hc <;> tauto
  · rintro ⟨h1, h3, h4⟩
    constructor
    · simp [decode_and_execute_instruction, h1, h3, h4]
    · intro k
      simp [decode_and_execute_instruction, h1, h3, h4, instruction_skip_not_key,
        apply_ite]
      split_ifs with hc <;> tauto

/-- Witness for C9's theorem on the concrete instructions 0xE09E and
0xE0A1. -/
theorem skip_key_correct_witness :
    ((nib1 0xE09E = 0xE ∧ nib3 0xE09E = 0x9 ∧ nib4 0xE09E = 0xE) ∧
      decode_and_execute_instruction zeroProc 0xE09E none 0 = none ∧
      (∀ k, decode_and_execute_instruction zeroProc 0xE09E (some k) 0
        = some (if zeroProc.var_registers (nib2 0xE09E) = k
                then { zeroProc with pc := zeroProc.pc + 2 } else zeroProc))) ∧
    ((nib1 0xE0A1 = 0xE ∧ nib3 0xE0A1 = 0xA ∧ nib4 0xE0A1 = 0x1) ∧
      decode_and_execute_instruction zeroProc 0xE0A1 none 0 = none ∧
      (∀ k, decode_and_execute_instruction zeroProc 0xE0A1 (some k) 0
        = some (if zeroProc.var_registers (nib2 0xE0A1) ≠ k
                then { zeroProc with pc := zeroProc.pc + 2 } else zeroProc))) :=
  ⟨⟨⟨by decide, by decide, by decide⟩,
      (skip_key_correct zeroProc 0xE09E 0).1 ⟨by decide, by decide, by decide⟩⟩,
    ⟨⟨by decide, by decide, by decide⟩,
      (skip_key_correct zeroProc 0xE0A1 0).2 ⟨by decide, by decide, by decide⟩⟩⟩

/-- **C3** counterexample.  From the all-clear, all-zero-memory state, an
all-zero one-row sprite drawn twice leaves VF = 0 after the second draw,
not the 1 the claim asserts unconditionally. -/
theorem draw_twice_zero_sprite_counterexample :
    ((instruction_draw_display zeroProc 0 1 1).bind
        (fun s1 => instruction_draw_display s1 0 1 1)).map
      (fun s2 => s2.var_registers 0xF) = some 0 ∧
    ¬ (((instruction_draw_display zeroProc 0 1 1).bind
        (fun s1 => instruction_draw_display s1 0 1 1)).map
      (fun s2 => s2.var_registers 0xF) = some 1) := by
  constructor
  · decide
  · decide
